import Mathlib

/-!
Verification of the A-GRIMMER consistency engine
(`src/bullshit_detector/grimmer.py`).

The Python source works on IEEE doubles; following the specification's own
reference semantics ("the reference behavior above is stated in real-number
terms"), every float is embedded as an exact rational number and every
arithmetic step of the source is reproduced literally on `ℚ`.

The only real-valued intermediate of the source is `pred_sd = math.sqrt(var)`
with `var : ℚ`.  Every use the source makes of `pred_sd` is a comparison of
`√var` (or of its scaled floor) against rational bounds, so those comparisons
are decided exactly by squaring; the functions `ratSqrtFloor`,
`sqrtScaledFloor`, `sqrtScaledCeil`, `sqrtIsHalfway`, `sqrtBankers` below are
the exact-rational evaluations of the corresponding floating-point
expressions of the source applied at `√var`, and `ratSqrtFloor_spec` /
`ratSqrtFloor_eq` certify the floor-of-square-root characterisation.

Python raises `ZeroDivisionError` on `realsum / n` when `n = 0` and on
`var = (x - n*realmean**2)/(n-1)` when `n = 1` and the candidate loop is
entered; the embedding returns `Except.error "ZeroDivisionError"` at exactly
those program points.
-/

namespace Grimmer

/-- The absolute tolerance `1e-9` that the source uses for every
floating-point equality test. -/
def eps : ℚ := 1 / 10 ^ 9

/-- Python 3 `round(x)`: round to the nearest integer, ties to the nearest
even integer (banker's rounding).  Used by the source for
`realsum = round(total)`. -/
def pythonRound (q : ℚ) : ℤ :=
  if q - (⌊q⌋ : ℚ) < 1 / 2 then ⌊q⌋
  else if 1 / 2 < q - (⌊q⌋ : ℚ) then ⌊q⌋ + 1
  else if ⌊q⌋ % 2 = 0 then ⌊q⌋ else ⌊q⌋ + 1

/-- The halfway detector shared by `_round_half_down` and `_round_half_up`:
`is_five = number*factor*10 - math.floor(number*factor)*10` and the test
`abs(is_five - 5) < 1e-9`, with `factor = 10**decimals`. -/
def isHalfway (number : ℚ) (decimals : ℕ) : Prop :=
  |number * 10 ^ decimals * 10 - (⌊number * 10 ^ decimals⌋ : ℚ) * 10 - 5| < eps

instance (number : ℚ) (decimals : ℕ) : Decidable (isHalfway number decimals) := by
  unfold isHalfway; infer_instance

/-- `_round_half_down(number, decimals)`: on a detected halfway case return
`math.floor(number*factor)/factor`, otherwise Python's
`round(number, decimals)` (banker's rounding at the scaled value). -/
def round_half_down (number : ℚ) (decimals : ℕ) : ℚ :=
  if isHalfway number decimals then (⌊number * 10 ^ decimals⌋ : ℚ) / 10 ^ decimals
  else (pythonRound (number * 10 ^ decimals) : ℚ) / 10 ^ decimals

/-- `_round_half_up(number, decimals)`: on a detected halfway case return
`math.ceil(number*factor)/factor`, otherwise Python's
`round(number, decimals)`. -/
def round_half_up (number : ℚ) (decimals : ℕ) : ℚ :=
  if isHalfway number decimals then (⌈number * 10 ^ decimals⌉ : ℚ) / 10 ^ decimals
  else (pythonRound (number * 10 ^ decimals) : ℚ) / 10 ^ decimals

/-- `⌊√w⌋` for a rational `w ≥ 0`, computed exactly:
`√(a/b) = √(a*b)/b`, hence `⌊√(a/b)⌋ = (Nat.sqrt (a*b)) / b`. -/
def ratSqrtFloor (w : ℚ) : ℤ := (Nat.sqrt (w.num.toNat * w.den) / w.den : ℕ)

/-- `math.floor(√v * c)` for rational `v ≥ 0`, i.e. `⌊√(v*c²)⌋`. -/
def sqrtScaledFloor (v : ℚ) (c : ℕ) : ℤ := ratSqrtFloor (v * (c : ℚ) ^ 2)

/-- `math.ceil(√v * c)` for rational `v ≥ 0`: it equals the floor when
`√v * c` is an integer (`v*c²` a perfect square) and floor + 1 otherwise. -/
def sqrtScaledCeil (v : ℚ) (c : ℕ) : ℤ :=
  if v * (c : ℚ) ^ 2 = (sqrtScaledFloor v c : ℚ) ^ 2 then sqrtScaledFloor v c
  else sqrtScaledFloor v c + 1

/-- The halfway test of the rounding helpers applied at `number = √v`,
`factor = 10^d`: `|√v*10^(d+1) - ⌊√v*10^d⌋*10 - 5| < 1e-9`.  Both bounds
`10*m+5∓eps` are positive, so the two strict comparisons against the
nonnegative `√v*10^(d+1)` are equivalent to their squared forms. -/
def sqrtIsHalfway (v : ℚ) (d : ℕ) : Prop :=
  (10 * (sqrtScaledFloor v (10 ^ d) : ℚ) + 5 - eps) ^ 2 < v * ((10 : ℚ) ^ (d + 1)) ^ 2 ∧
  v * ((10 : ℚ) ^ (d + 1)) ^ 2 < (10 * (sqrtScaledFloor v (10 ^ d) : ℚ) + 5 + eps) ^ 2

instance (v : ℚ) (d : ℕ) : Decidable (sqrtIsHalfway v d) := by
  unfold sqrtIsHalfway; infer_instance

/-- Python `round(√v * c)` (nearest integer, ties to even): with
`m = ⌊√v*c⌋`, compare `√v*c` with `m + 1/2` by comparing `v*(2c)²` with
`(2m+1)²`; on the exact tie take the even one of `m`, `m+1`. -/
def sqrtBankers (v : ℚ) (c : ℕ) : ℤ :=
  if v * ((2 : ℚ) * c) ^ 2 < (2 * (sqrtScaledFloor v c : ℚ) + 1) ^ 2 then sqrtScaledFloor v c
  else if (2 * (sqrtScaledFloor v c : ℚ) + 1) ^ 2 < v * ((2 : ℚ) * c) ^ 2 then
    sqrtScaledFloor v c + 1
  else if sqrtScaledFloor v c % 2 = 0 then sqrtScaledFloor v c else sqrtScaledFloor v c + 1

/-- `_round_half_down(math.sqrt v, d)`, evaluated exactly. -/
def sqrtRoundHalfDown (v : ℚ) (d : ℕ) : ℚ :=
  if sqrtIsHalfway v d then (sqrtScaledFloor v (10 ^ d) : ℚ) / 10 ^ d
  else (sqrtBankers v (10 ^ d) : ℚ) / 10 ^ d

/-- `_round_half_up(math.sqrt v, d)`, evaluated exactly. -/
def sqrtRoundHalfUp (v : ℚ) (d : ℕ) : ℚ :=
  if sqrtIsHalfway v d then (sqrtScaledCeil v (10 ^ d) : ℚ) / 10 ^ d
  else (sqrtBankers v (10 ^ d) : ℚ) / 10 ^ d

/-- The dict returned by `a_grimmer`. -/
structure Verdict where
  result : String
  grim_passed : Option Bool
  grimmer_passed : Option Bool
  reconstructed_mean : ℚ
deriving Repr, DecidableEq

/-- The Stage-0 return value: `n` too large for the reported precision. -/
def inapplicableVerdict (mean : ℚ) : Verdict :=
  ⟨"GRIM inapplicable (n too large for reported precision)", none, none, mean⟩

/-- The Stage-1 failure return value. -/
def grimInconsistentVerdict (rm : ℚ) : Verdict :=
  ⟨"GRIM inconsistent", some false, none, rm⟩

/-- The return value of the three GRIMMER failure exits. -/
def grimmerInconsistentVerdict (rm : ℚ) : Verdict :=
  ⟨"GRIMMER inconsistent", some true, some false, rm⟩

/-- The all-tests-passed return value. -/
def consistentVerdict (rm : ℚ) : Verdict :=
  ⟨"consistent", some true, some true, rm⟩

/-- `realsum = round(mean * n)` (banker's rounding, as in the source). -/
def realsumOf (n : ℤ) (mean : ℚ) : ℤ := pythonRound (mean * n)

/-- `realmean = realsum / n`. -/
def realmeanOf (n : ℤ) (mean : ℚ) : ℚ := (realsumOf n mean : ℚ) / (n : ℚ)

/-- `grim_passed = consistency_down or consistency_up`: `realmean` rounded to
`decimals_mean` places by either helper reproduces `mean` within `1e-9`. -/
def grimPassesB (n : ℤ) (mean : ℚ) (decimals_mean : ℕ) : Bool :=
  decide (|round_half_down (realmeanOf n mean) decimals_mean - mean| < eps) ||
  decide (|round_half_up (realmeanOf n mean) decimals_mean - mean| < eps)

/-- `half_unit = 5.0 / 10**decimals_sd`. -/
def half_unitOf (decimals_sd : ℕ) : ℚ := 5 / 10 ^ decimals_sd

/-- `lsigma = 0.0 if sd < half_unit else sd - half_unit`. -/
def lsigmaOf (sd : ℚ) (decimals_sd : ℕ) : ℚ :=
  if sd < half_unitOf decimals_sd then 0 else sd - half_unitOf decimals_sd

/-- `usigma = sd + half_unit`. -/
def usigmaOf (sd : ℚ) (decimals_sd : ℕ) : ℚ := sd + half_unitOf decimals_sd

/-- `lower_bound = (n-1)*lsigma**2 + n*realmean**2`. -/
def lowerBoundOf (n : ℤ) (mean sd : ℚ) (decimals_sd : ℕ) : ℚ :=
  ((n : ℚ) - 1) * lsigmaOf sd decimals_sd ^ 2 + (n : ℚ) * realmeanOf n mean ^ 2

/-- `upper_bound = (n-1)*usigma**2 + n*realmean**2`. -/
def upperBoundOf (n : ℤ) (mean sd : ℚ) (decimals_sd : ℕ) : ℚ :=
  ((n : ℚ) - 1) * usigmaOf sd decimals_sd ^ 2 + (n : ℚ) * realmeanOf n mean ^ 2

/-- `list(range(lo, hi + 1))` over integers. -/
def possibleIntegers (lo hi : ℤ) : List ℤ :=
  (List.range (hi + 1 - lo).toNat).map (fun i : ℕ => lo + (i : ℤ))

/-- `possible_integers = list(range(math.ceil(lower_bound), math.floor(upper_bound) + 1))`. -/
def candidatesOf (n : ℤ) (mean sd : ℚ) (decimals_sd : ℕ) : List ℤ :=
  possibleIntegers ⌈lowerBoundOf n mean sd decimals_sd⌉ ⌊upperBoundOf n mean sd decimals_sd⌋

/-- `var = (x - n*realmean**2) / (n - 1)` for a candidate integer `x`. -/
def varOf (n : ℤ) (realmean : ℚ) (x : ℤ) : ℚ :=
  ((x : ℚ) - (n : ℚ) * realmean ^ 2) / ((n : ℚ) - 1)

/-- The loop body of Step 6: a candidate is marked `False` when `var < 0`,
otherwise when neither rounding direction of `√var` reproduces `sd` within
`1e-9`. -/
def matchesSD (n : ℤ) (realmean sd : ℚ) (decimals_sd : ℕ) (x : ℤ) : Bool :=
  if varOf n realmean x < 0 then false
  else
    decide (|sqrtRoundHalfDown (varOf n realmean x) decimals_sd - sd| < eps) ||
    decide (|sqrtRoundHalfUp (varOf n realmean x) decimals_sd - sd| < eps)

/-- `matches_sd`, the list built by Step 6. -/
def matchesSDList (n : ℤ) (mean sd : ℚ) (decimals_sd : ℕ) : List Bool :=
  (candidatesOf n mean sd decimals_sd).map (matchesSD n (realmeanOf n mean) sd decimals_sd)

/-- `matches_oddness = [x % 2 == oddness for x in possible_integers]` with
`oddness = realsum % 2`. -/
def matchesOddnessList (n : ℤ) (mean sd : ℚ) (decimals_sd : ℕ) : List Bool :=
  (candidatesOf n mean sd decimals_sd).map (fun x => decide (x % 2 = realsumOf n mean % 2))

/-- `third_test = [m_sd and m_odd for m_sd, m_odd in zip(matches_sd, matches_oddness)]`. -/
def thirdTestList (n : ℤ) (mean sd : ℚ) (decimals_sd : ℕ) : List Bool :=
  List.zipWith (fun a b => a && b) (matchesSDList n mean sd decimals_sd)
    (matchesOddnessList n mean sd decimals_sd)

/-- The A-GRIMMER engine `a_grimmer(n, mean, sd, decimals_mean, decimals_sd)`,
with the source's early returns rendered as an if-chain and Python's two
possible `ZeroDivisionError` sites rendered as `Except.error`. -/
def a_grimmer (n : ℤ) (mean sd : ℚ) (decimals_mean decimals_sd : ℕ) :
    Except String Verdict :=
  if 10 ^ decimals_mean < n then .ok (inapplicableVerdict mean)
  else if n = 0 then .error "ZeroDivisionError"
  else if grimPassesB n mean decimals_mean = false then
    .ok (grimInconsistentVerdict (realmeanOf n mean))
  else if ⌊upperBoundOf n mean sd decimals_sd⌋ < ⌈lowerBoundOf n mean sd decimals_sd⌉ then
    .ok (grimmerInconsistentVerdict (realmeanOf n mean))
  else if n = 1 then .error "ZeroDivisionError"
  else if (matchesSDList n mean sd decimals_sd).any id = false then
    .ok (grimmerInconsistentVerdict (realmeanOf n mean))
  else if (thirdTestList n mean sd decimals_sd).any id = false then
    .ok (grimmerInconsistentVerdict (realmeanOf n mean))
  else .ok (consistentVerdict (realmeanOf n mean))

/-! ### Supporting lemmas: the exact floor-of-square-root -/

theorem ratSqrtFloor_nonneg (w : ℚ) : 0 ≤ ratSqrtFloor w := Int.natCast_nonneg _

/-- `ratSqrtFloor w` really is `⌊√w⌋`: its square is at most `w` and the
square of its successor exceeds `w`. -/
theorem ratSqrtFloor_spec (w : ℚ) (hw : 0 ≤ w) :
    ((ratSqrtFloor w : ℚ)) ^ 2 ≤ w ∧ w < ((ratSqrtFloor w : ℚ) + 1) ^ 2 := by
  have hb : 0 < w.den := w.den_pos
  have hnum : (w.num.toNat : ℤ) = w.num := Int.toNat_of_nonneg (Rat.num_nonneg.mpr hw)
  set a := w.num.toNat with ha
  set b := w.den with hbdef
  have hw' : w = (a : ℚ) / (b : ℚ) := by
    rw [← Rat.num_div_den w, ← hnum]
    push_cast
    rfl
  set s := Nat.sqrt (a * b) with hs
  set q := s / b with hq
  have hrs : ratSqrtFloor w = (q : ℤ) := rfl
  have h1 : q * b ≤ s := Nat.div_mul_le_self s b
  have h2 : s < b * q + b := by
    conv_lhs => rw [← Nat.div_add_mod s b]
    exact Nat.add_lt_add_left (Nat.mod_lt _ hb) _
  have hss : s * s ≤ a * b := Nat.sqrt_le (a * b)
  have hss' : a * b < (s + 1) * (s + 1) := Nat.lt_succ_sqrt (a * b)
  have hle : q * q * b ≤ a := by
    have hh : (q * b) * (q * b) ≤ s * s := Nat.mul_le_mul h1 h1
    have hh2 : q * q * b * b ≤ a * b := by
      calc q * q * b * b = (q * b) * (q * b) := by ring
        _ ≤ s * s := hh
        _ ≤ a * b := hss
    exact Nat.le_of_mul_le_mul_right hh2 hb
  have hlt : a < (q + 1) * (q + 1) * b := by
    have hsucc : s + 1 ≤ b * (q + 1) := by
      have : b * (q + 1) = b * q + b := by ring
      omega
    have hh : (s + 1) * (s + 1) ≤ (b * (q + 1)) * (b * (q + 1)) := Nat.mul_le_mul hsucc hsucc
    have hh2 : a * b < (q + 1) * (q + 1) * b * b := by
      calc a * b < (s + 1) * (s + 1) := hss'
        _ ≤ (b * (q + 1)) * (b * (q + 1)) := hh
        _ = (q + 1) * (q + 1) * b * b := by ring
    exact Nat.lt_of_mul_lt_mul_right hh2
  have hbq : (0 : ℚ) < (b : ℚ) := by exact_mod_cast hb
  constructor
  · rw [hrs]
    rw [hw', le_div_iff hbq]
    push_cast
    have := (Nat.cast_le (α := ℚ)).mpr hle
    push_cast at this
    nlinarith [this]
  · rw [hrs]
    rw [hw', div_lt_iff hbq]
    have := (Nat.cast_lt (α := ℚ)).mpr hlt
    push_cast at this
    push_cast
    nlinarith [this]

/-- Uniqueness: any nonnegative integer whose square brackets `w` the same
way is `ratSqrtFloor w`. -/
theorem ratSqrtFloor_eq (w : ℚ) (r : ℤ) (hr : 0 ≤ r)
    (h1 : ((r : ℚ)) ^ 2 ≤ w) (h2 : w < ((r : ℚ) + 1) ^ 2) : ratSqrtFloor w = r := by
  have hw : 0 ≤ w := le_trans (sq_nonneg _) h1
  obtain ⟨g1, g2⟩ := ratSqrtFloor_spec w hw
  have hq0 : 0 ≤ ratSqrtFloor w := ratSqrtFloor_nonneg w
  have hqQ : (0 : ℚ) ≤ (ratSqrtFloor w : ℚ) := by exact_mod_cast hq0
  have hrQ : (0 : ℚ) ≤ (r : ℚ) := by exact_mod_cast hr
  have hlt1 : ((ratSqrtFloor w : ℚ)) ^ 2 < ((r : ℚ) + 1) ^ 2 := lt_of_le_of_lt g1 h2
  have hlt2 : ((r : ℚ)) ^ 2 < ((ratSqrtFloor w : ℚ) + 1) ^ 2 := lt_of_le_of_lt h1 g2
  have hle1 : (ratSqrtFloor w : ℚ) < (r : ℚ) + 1 := by nlinarith
  have hle2 : (r : ℚ) < (ratSqrtFloor w : ℚ) + 1 := by nlinarith
  have i1 : ratSqrtFloor w < r + 1 := by exact_mod_cast hle1
  have i2 : r < ratSqrtFloor w + 1 := by exact_mod_cast hle2
  omega

/-- Uniqueness, phrased for the scaled floor `⌊√v * c⌋`. -/
theorem sqrtScaledFloor_eq (v : ℚ) (c : ℕ) (r : ℤ) (hr : 0 ≤ r)
    (h1 : ((r : ℚ)) ^ 2 ≤ v * (c : ℚ) ^ 2) (h2 : v * (c : ℚ) ^ 2 < ((r : ℚ) + 1) ^ 2) :
    sqrtScaledFloor v c = r :=
  ratSqrtFloor_eq _ r hr h1 h2

/-! ### Supporting lemmas: banker's rounding, candidate lists, verdict shapes -/

/-- Banker's rounding on an integer is the identity. -/
theorem pythonRound_intCast (k : ℤ) : pythonRound (k : ℚ) = k := by
  unfold pythonRound
  rw [Int.floor_intCast]
  norm_num

/-- `round(q)` is a nearest integer to `q`: no integer is strictly closer. -/
theorem pythonRound_nearest (q : ℚ) (k : ℤ) :
    |((pythonRound q : ℤ) : ℚ) - q| ≤ |((k : ℚ)) - q| := by
  have hf1 : ((⌊q⌋ : ℤ) : ℚ) ≤ q := Int.floor_le q
  have hf2 : q < ((⌊q⌋ : ℤ) : ℚ) + 1 := Int.lt_floor_add_one q
  have hbound : q - ((⌊q⌋ : ℤ) : ℚ) ≤ |((k : ℚ)) - q| ∨
      ((⌊q⌋ : ℤ) : ℚ) + 1 - q ≤ |((k : ℚ)) - q| := by
    rcases le_or_lt k ⌊q⌋ with h | h
    · left
      have hkq : (k : ℚ) ≤ ((⌊q⌋ : ℤ) : ℚ) := by exact_mod_cast h
      calc q - ((⌊q⌋ : ℤ) : ℚ) ≤ q - (k : ℚ) := by linarith
        _ ≤ |((k : ℚ)) - q| := by rw [abs_sub_comm]; exact le_abs_self _
    · right
      have hkq : ((⌊q⌋ : ℤ) : ℚ) + 1 ≤ (k : ℚ) := by exact_mod_cast h
      calc ((⌊q⌋ : ℤ) : ℚ) + 1 - q ≤ (k : ℚ) - q := by linarith
        _ ≤ |((k : ℚ)) - q| := le_abs_self _
  unfold pythonRound
  split_ifs with h1 h2 h3
  · rw [abs_of_nonpos (by linarith)]
    rcases hbound with hb | hb
    · linarith
    · linarith
  · push_cast
    rw [abs_of_nonneg (by linarith)]
    rcases hbound with hb | hb
    · linarith
    · push_cast at hb; linarith
  · have heq : q - ((⌊q⌋ : ℤ) : ℚ) = 1 / 2 := by linarith
    rw [abs_of_nonpos (by linarith)]
    rcases hbound with hb | hb
    · linarith
    · linarith
  · have heq : q - ((⌊q⌋ : ℤ) : ℚ) = 1 / 2 := by linarith
    push_cast
    rw [abs_of_nonneg (by linarith)]
    rcases hbound with hb | hb
    · linarith
    · push_cast at hb; linarith

/-- Membership in `list(range(lo, hi+1))`. -/
theorem mem_possibleIntegers (lo hi x : ℤ) :
    x ∈ possibleIntegers lo hi ↔ lo ≤ x ∧ x ≤ hi := by
  unfold possibleIntegers
  rw [List.mem_map]
  constructor
  · rintro ⟨i, hil, rfl⟩
    rw [List.mem_range] at hil
    refine ⟨?_, ?_⟩ <;> omega
  · rintro ⟨h1, h2⟩
    refine ⟨(x - lo).toNat, ?_, ?_⟩
    · rw [List.mem_range]
      omega
    · dsimp only
      omega

/-- `any(matches_sd)` holds exactly when some candidate integer in the
inclusive range passes the SD-rounding test. -/
theorem matchesSDList_any_iff (n : ℤ) (mean sd : ℚ) (ds : ℕ) :
    (matchesSDList n mean sd ds).any id = true ↔
      ∃ x : ℤ, ⌈lowerBoundOf n mean sd ds⌉ ≤ x ∧ x ≤ ⌊upperBoundOf n mean sd ds⌋ ∧
        matchesSD n (realmeanOf n mean) sd ds x = true := by
  unfold matchesSDList candidatesOf
  rw [List.any_eq_true]
  constructor
  · rintro ⟨b, hb, hpb⟩
    rw [List.mem_map] at hb
    obtain ⟨x, hx, rfl⟩ := hb
    rw [mem_possibleIntegers] at hx
    exact ⟨x, hx.1, hx.2, by simpa using hpb⟩
  · rintro ⟨x, h1, h2, h3⟩
    refine ⟨matchesSD n (realmeanOf n mean) sd ds x, ?_, by simpa using h3⟩
    rw [List.mem_map]
    exact ⟨x, (mem_possibleIntegers _ _ _).mpr ⟨h1, h2⟩, rfl⟩

/-- `third_test` as a single map over the candidates. -/
theorem thirdTestList_eq_map (n : ℤ) (mean sd : ℚ) (ds : ℕ) :
    thirdTestList n mean sd ds = (candidatesOf n mean sd ds).map
      (fun x => matchesSD n (realmeanOf n mean) sd ds x &&
        decide (x % 2 = realsumOf n mean % 2)) := by
  unfold thirdTestList matchesSDList matchesOddnessList
  rw [List.zipWith_map, List.zipWith_same]

/-- `any(third_test)` holds exactly when some candidate integer passes both
the SD-rounding test and the parity test. -/
theorem thirdTestList_any_iff (n : ℤ) (mean sd : ℚ) (ds : ℕ) :
    (thirdTestList n mean sd ds).any id = true ↔
      ∃ x : ℤ, ⌈lowerBoundOf n mean sd ds⌉ ≤ x ∧ x ≤ ⌊upperBoundOf n mean sd ds⌋ ∧
        matchesSD n (realmeanOf n mean) sd ds x = true ∧ x % 2 = realsumOf n mean % 2 := by
  rw [thirdTestList_eq_map]
  unfold candidatesOf
  rw [List.any_eq_true]
  constructor
  · rintro ⟨b, hb, hpb⟩
    rw [List.mem_map] at hb
    obtain ⟨x, hx, rfl⟩ := hb
    rw [mem_possibleIntegers] at hx
    simp only [id, Bool.and_eq_true, decide_eq_true_eq] at hpb
    exact ⟨x, hx.1, hx.2, hpb.1, hpb.2⟩
  · rintro ⟨x, h1, h2, h3, h4⟩
    refine ⟨matchesSD n (realmeanOf n mean) sd ds x &&
      decide (x % 2 = realsumOf n mean % 2), ?_, ?_⟩
    · rw [List.mem_map]
      exact ⟨x, (mem_possibleIntegers _ _ _).mpr ⟨h1, h2⟩, rfl⟩
    · simp only [id, Bool.and_eq_true, decide_eq_true_eq]
      exact ⟨h3, h4⟩

/-- Every successful run of the engine returns one of the four verdict
records, with the three arithmetic-stage verdicts carrying `realmean`. -/
theorem a_grimmer_ok_shape (n : ℤ) (mean sd : ℚ) (dm ds : ℕ) (v : Verdict)
    (h : a_grimmer n mean sd dm ds = .ok v) :
    v = inapplicableVerdict mean ∨ v = grimInconsistentVerdict (realmeanOf n mean) ∨
    v = grimmerInconsistentVerdict (realmeanOf n mean) ∨
    v = consistentVerdict (realmeanOf n mean) := by
  unfold a_grimmer at h
  split_ifs at h <;> simp_all

/-! ### Evaluation helpers for concrete inputs -/

theorem pythonRound_eq_down (q : ℚ) (f : ℤ) (h1 : (f : ℚ) ≤ q) (h2 : q - (f : ℚ) < 1 / 2) :
    pythonRound q = f := by
  have hf : ⌊q⌋ = f := Int.floor_eq_iff.mpr ⟨h1, by push_cast; linarith⟩
  unfold pythonRound
  rw [hf, if_pos h2]

theorem pythonRound_eq_up (q : ℚ) (f : ℤ) (h1 : (f : ℚ) ≤ q) (h15 : 1 / 2 < q - (f : ℚ))
    (h2 : q < (f : ℚ) + 1) : pythonRound q = f + 1 := by
  have hf : ⌊q⌋ = f := Int.floor_eq_iff.mpr ⟨h1, by push_cast; linarith⟩
  unfold pythonRound
  rw [hf, if_neg (by linarith), if_pos h15]

theorem pythonRound_eq_tie_even (q : ℚ) (f : ℤ) (h1 : (f : ℚ) ≤ q)
    (h : q - (f : ℚ) = 1 / 2) (he : f % 2 = 0) : pythonRound q = f := by
  have hf : ⌊q⌋ = f := Int.floor_eq_iff.mpr ⟨h1, by push_cast; linarith⟩
  unfold pythonRound
  rw [hf, if_neg (by linarith), if_neg (by linarith), if_pos he]

theorem pythonRound_eq_tie_odd (q : ℚ) (f : ℤ) (h1 : (f : ℚ) ≤ q)
    (h : q - (f : ℚ) = 1 / 2) (he : ¬ f % 2 = 0) : pythonRound q = f + 1 := by
  have hf : ⌊q⌋ = f := Int.floor_eq_iff.mpr ⟨h1, by push_cast; linarith⟩
  unfold pythonRound
  rw [hf, if_neg (by linarith), if_neg (by linarith), if_neg he]

/-- `realmean` for the GRIM-inconsistent instance `n = 10`, `mean = 3.45`:
`round(34.5)` ties to the even integer `34`, so `realmean = 3.4`. -/
theorem realmeanOf_ten_345 : realmeanOf 10 (69 / 20) = 17 / 5 := by
  unfold realmeanOf realsumOf
  rw [show ((69 : ℚ) / 20 * ((10 : ℤ) : ℚ)) = 69 / 2 by push_cast; ring]
  rw [pythonRound_eq_tie_even (69 / 2) 34 (by norm_num) (by norm_num) (by norm_num)]
  push_cast
  norm_num

/-- `3.4` is not a halfway case at two decimals. -/
theorem not_isHalfway_34 : ¬ isHalfway (17 / 5) 2 := by
  unfold isHalfway eps
  rw [show ((17 : ℚ) / 5 * 10 ^ 2) = ((340 : ℤ) : ℚ) by norm_num]
  rw [Int.floor_intCast]
  norm_num

/-- The GRIM stage fails for `n = 10`, `mean = 3.45`: the reconstructed mean
`3.4` does not round back to `3.45` in either direction. -/
theorem grimPassesB_ten_345 : grimPassesB 10 (69 / 20) 2 = false := by
  unfold grimPassesB
  rw [realmeanOf_ten_345]
  have hd : round_half_down (17 / 5) 2 = 17 / 5 := by
    unfold round_half_down
    rw [if_neg not_isHalfway_34]
    rw [show ((17 : ℚ) / 5 * 10 ^ 2) = ((340 : ℤ) : ℚ) by norm_num, pythonRound_intCast]
    norm_num
  have hu : round_half_up (17 / 5) 2 = 17 / 5 := by
    unfold round_half_up
    rw [if_neg not_isHalfway_34]
    rw [show ((17 : ℚ) / 5 * 10 ^ 2) = ((340 : ℤ) : ℚ) by norm_num, pythonRound_intCast]
    norm_num
  rw [hd, hu]
  rw [Bool.or_eq_false_iff]
  constructor <;> rw [decide_eq_false_iff_not] <;> unfold eps <;>
    rw [abs_sub_lt_iff] <;> push_neg <;> exact fun _ => by norm_num

/-- Full evaluation of the engine on the spec's GRIM-inconsistent example
`n = 10`, `mean = 3.45`, `sd = 1.50`. -/
theorem a_grimmer_ten_345 :
    a_grimmer 10 (69 / 20) (3 / 2) 2 2 = .ok (grimInconsistentVerdict (17 / 5)) := by
  unfold a_grimmer
  rw [if_neg (by norm_num : ¬ (10 : ℤ) ^ 2 < 10), if_neg (by norm_num : ¬ (10 : ℤ) = 0),
    if_pos (by rw [grimPassesB_ten_345] : grimPassesB 10 (69 / 20) 2 = false),
    realmeanOf_ten_345]

/-! ### Rounding a perfect-square variance -/

theorem sqrtScaledFloor_sq (K c : ℕ) :
    sqrtScaledFloor ((K : ℚ) ^ 2) c = (K : ℤ) * (c : ℤ) := by
  apply sqrtScaledFloor_eq
  · positivity
  · push_cast
    nlinarith [sq_nonneg ((K : ℚ) * c)]
  · push_cast
    nlinarith [mul_nonneg (Nat.cast_nonneg (α := ℚ) K) (Nat.cast_nonneg (α := ℚ) c)]

theorem not_sqrtIsHalfway_sq (K d : ℕ) : ¬ sqrtIsHalfway ((K : ℚ) ^ 2) d := by
  unfold sqrtIsHalfway
  rw [sqrtScaledFloor_sq]
  rintro ⟨h1, -⟩
  have hA : (0 : ℚ) ≤ (K : ℚ) * (10 : ℚ) ^ d := by positivity
  have heps : eps < 5 := by unfold eps; norm_num
  have heps0 : 0 < eps := by unfold eps; norm_num
  have hB : ((10 : ℚ)) ^ (d + 1) = 10 ^ d * 10 := pow_succ 10 d
  rw [hB] at h1
  push_cast at h1
  have h5 : (0 : ℚ) < 5 - eps := by linarith
  have hprod : 0 ≤ (K : ℚ) * 10 ^ d * (5 - eps) := mul_nonneg hA (le_of_lt h5)
  have hsq : 0 < (5 - eps) ^ 2 := by positivity
  nlinarith [h1, hprod, hsq]

theorem sqrtBankers_sq (K c : ℕ) : sqrtBankers ((K : ℚ) ^ 2) c = (K : ℤ) * (c : ℤ) := by
  unfold sqrtBankers
  rw [sqrtScaledFloor_sq, if_pos]
  push_cast
  nlinarith [mul_nonneg (Nat.cast_nonneg (α := ℚ) K) (Nat.cast_nonneg (α := ℚ) c)]

/-- Rounding `√(K²) = K` to any precision returns `K` itself (half-down). -/
theorem sqrtRoundHalfDown_sq (K d : ℕ) : sqrtRoundHalfDown ((K : ℚ) ^ 2) d = K := by
  unfold sqrtRoundHalfDown
  rw [if_neg (not_sqrtIsHalfway_sq K d), sqrtBankers_sq]
  push_cast
  rw [mul_div_assoc, div_self (by positivity : ((10 : ℚ) ^ d) ≠ 0), mul_one]

/-- Rounding `√(K²) = K` to any precision returns `K` itself (half-up). -/
theorem sqrtRoundHalfUp_sq (K d : ℕ) : sqrtRoundHalfUp ((K : ℚ) ^ 2) d = K := by
  unfold sqrtRoundHalfUp
  rw [if_neg (not_sqrtIsHalfway_sq K d), sqrtBankers_sq]
  push_cast
  rw [mul_div_assoc, div_self (by positivity : ((10 : ℚ) ^ d) ≠ 0), mul_one]

/-! ### Full evaluation at `n = 2`, `mean = 3`, `sd = 1` (parity failure) -/

theorem realmeanOf_two_three : realmeanOf 2 3 = 3 := by
  unfold realmeanOf realsumOf
  rw [show ((3 : ℚ) * ((2 : ℤ) : ℚ)) = ((6 : ℤ) : ℚ) by push_cast; ring, pythonRound_intCast]
  push_cast
  norm_num

theorem not_isHalfway_3 : ¬ isHalfway 3 2 := by
  unfold isHalfway eps
  rw [show ((3 : ℚ) * 10 ^ 2) = ((300 : ℤ) : ℚ) by norm_num]
  rw [Int.floor_intCast]
  norm_num

theorem grimPassesB_two_three : grimPassesB 2 3 2 = true := by
  unfold grimPassesB
  rw [realmeanOf_two_three]
  have hd : round_half_down 3 2 = 3 := by
    unfold round_half_down
    rw [if_neg not_isHalfway_3]
    rw [show ((3 : ℚ) * 10 ^ 2) = ((300 : ℤ) : ℚ) by norm_num, pythonRound_intCast]
    norm_num
  rw [hd, Bool.or_eq_true]
  left
  rw [decide_eq_true_eq]
  unfold eps
  norm_num

theorem ceil_lowerBound_two : ⌈lowerBoundOf 2 3 1 2⌉ = 19 := by
  unfold lowerBoundOf lsigmaOf half_unitOf
  rw [realmeanOf_two_three, if_neg (by norm_num : ¬ (1 : ℚ) < 5 / 10 ^ 2)]
  rw [Int.ceil_eq_iff]
  push_cast
  norm_num

theorem floor_upperBound_two : ⌊upperBoundOf 2 3 1 2⌋ = 19 := by
  unfold upperBoundOf usigmaOf half_unitOf
  rw [realmeanOf_two_three]
  rw [Int.floor_eq_iff]
  push_cast
  norm_num

theorem candidatesOf_two : candidatesOf 2 3 1 2 = [19] := by
  unfold candidatesOf
  rw [ceil_lowerBound_two, floor_upperBound_two]
  rfl

theorem matchesSD_two_19 : matchesSD 2 3 1 2 19 = true := by
  unfold matchesSD varOf
  rw [show ((((19 : ℤ) : ℚ)) - ((2 : ℤ) : ℚ) * 3 ^ 2) / (((2 : ℤ) : ℚ) - 1) =
    ((1 : ℕ) : ℚ) ^ 2 by push_cast; norm_num]
  rw [if_neg (not_lt.mpr (by positivity : (0 : ℚ) ≤ ((1 : ℕ) : ℚ) ^ 2))]
  rw [sqrtRoundHalfDown_sq 1 2, Bool.or_eq_true]
  left
  rw [decide_eq_true_eq]
  unfold eps
  norm_num

theorem a_grimmer_two_three_one :
    a_grimmer 2 3 1 2 2 = .ok (grimmerInconsistentVerdict 3) := by
  unfold a_grimmer
  rw [if_neg (by norm_num : ¬ (10 : ℤ) ^ 2 < 2), if_neg (by norm_num : ¬ (2 : ℤ) = 0),
    if_neg (by simp [grimPassesB_two_three] : ¬ grimPassesB 2 3 2 = false),
    if_neg (by rw [ceil_lowerBound_two, floor_upperBound_two]; omega : ¬ ⌊upperBoundOf 2 3 1 2⌋ <
      ⌈lowerBoundOf 2 3 1 2⌉),
    if_neg (by norm_num : ¬ (2 : ℤ) = 1)]
  have hlist : matchesSDList 2 3 1 2 = [true] := by
    unfold matchesSDList
    rw [candidatesOf_two, realmeanOf_two_three]
    simp [matchesSD_two_19]
  have hsum : realsumOf 2 3 = 6 := by
    unfold realsumOf
    rw [show ((3 : ℚ) * ((2 : ℤ) : ℚ)) = ((6 : ℤ) : ℚ) by push_cast; ring, pythonRound_intCast]
  have hthird : thirdTestList 2 3 1 2 = [false] := by
    rw [thirdTestList_eq_map, candidatesOf_two, realmeanOf_two_three]
    simp [matchesSD_two_19, hsum]
  rw [if_neg (by rw [hlist] ; simp : ¬ (matchesSDList 2 3 1 2).any id = false),
    if_pos (by rw [hthird] ; rfl : (thirdTestList 2 3 1 2).any id = false),
    realmeanOf_two_three]

/-! ### Generic evaluation helpers for the sqrt-rounding pipeline -/

theorem not_sqrtIsHalfway_low (v : ℚ) (d : ℕ) (m : ℤ)
    (hm : sqrtScaledFloor v (10 ^ d) = m)
    (h : v * ((10 : ℚ) ^ (d + 1)) ^ 2 ≤ (10 * (m : ℚ) + 5 - eps) ^ 2) :
    ¬ sqrtIsHalfway v d := by
  unfold sqrtIsHalfway
  rw [hm]
  rintro ⟨h1, -⟩
  linarith

theorem not_sqrtIsHalfway_high (v : ℚ) (d : ℕ) (m : ℤ)
    (hm : sqrtScaledFloor v (10 ^ d) = m)
    (h : (10 * (m : ℚ) + 5 + eps) ^ 2 ≤ v * ((10 : ℚ) ^ (d + 1)) ^ 2) :
    ¬ sqrtIsHalfway v d := by
  unfold sqrtIsHalfway
  rw [hm]
  rintro ⟨-, h2⟩
  linarith

theorem sqrtBankers_eval_down (v : ℚ) (c : ℕ) (m : ℤ) (hm : sqrtScaledFloor v c = m)
    (h : v * ((2 : ℚ) * c) ^ 2 < (2 * (m : ℚ) + 1) ^ 2) : sqrtBankers v c = m := by
  unfold sqrtBankers
  rw [hm, if_pos h]

theorem sqrtBankers_eval_up (v : ℚ) (c : ℕ) (m : ℤ) (hm : sqrtScaledFloor v c = m)
    (h : (2 * (m : ℚ) + 1) ^ 2 < v * ((2 : ℚ) * c) ^ 2) : sqrtBankers v c = m + 1 := by
  unfold sqrtBankers
  rw [hm, if_neg (by linarith), if_pos h]

theorem sqrtRoundHalfDown_eval (v : ℚ) (d : ℕ) (r : ℤ) (hnh : ¬ sqrtIsHalfway v d)
    (hb : sqrtBankers v (10 ^ d) = r) : sqrtRoundHalfDown v d = (r : ℚ) / 10 ^ d := by
  unfold sqrtRoundHalfDown
  rw [if_neg hnh, hb]

theorem sqrtRoundHalfUp_eval (v : ℚ) (d : ℕ) (r : ℤ) (hnh : ¬ sqrtIsHalfway v d)
    (hb : sqrtBankers v (10 ^ d) = r) : sqrtRoundHalfUp v d = (r : ℚ) / 10 ^ d := by
  unfold sqrtRoundHalfUp
  rw [if_neg hnh, hb]

/-- `realmean` recovers an integer mean exactly for any nonzero `n`. -/
theorem realmeanOf_intCast (n : ℤ) (hn : n ≠ 0) (k : ℤ) :
    realmeanOf n ((k : ℤ) : ℚ) = (k : ℚ) := by
  unfold realmeanOf realsumOf
  rw [show ((k : ℚ) * (n : ℚ)) = (((k * n : ℤ)) : ℚ) by push_cast; ring, pythonRound_intCast]
  have hnq : ((n : ℤ) : ℚ) ≠ 0 := Int.cast_ne_zero.mpr hn
  push_cast
  rw [mul_div_assoc, div_self hnq, mul_one]

/-- The GRIM stage passes whenever the reconstructed mean reproduces the
reported mean exactly. -/
theorem grimPassesB_of_realmean_self (n : ℤ) (mean : ℚ) (dm : ℕ)
    (h : realmeanOf n mean = mean) (hr : round_half_down mean dm = mean) :
    grimPassesB n mean dm = true := by
  unfold grimPassesB
  rw [h, hr, Bool.or_eq_true]
  left
  rw [decide_eq_true_eq, sub_self, abs_zero]
  unfold eps
  norm_num

theorem grimPassesB_one_three : grimPassesB 1 3 2 = true := by
  apply grimPassesB_of_realmean_self
  · exact_mod_cast realmeanOf_intCast 1 (by norm_num) 3
  · unfold round_half_down
    rw [if_neg not_isHalfway_3]
    rw [show ((3 : ℚ) * 10 ^ 2) = ((300 : ℤ) : ℚ) by norm_num, pythonRound_intCast]
    norm_num

theorem grimPassesB_neg_one_three : grimPassesB (-1) 3 2 = true := by
  apply grimPassesB_of_realmean_self
  · exact_mod_cast realmeanOf_intCast (-1) (by norm_num) 3
  · unfold round_half_down
    rw [if_neg not_isHalfway_3]
    rw [show ((3 : ℚ) * 10 ^ 2) = ((300 : ℤ) : ℚ) by norm_num, pythonRound_intCast]
    norm_num

/-! ### Full evaluation at `n = 1` (the `ZeroDivisionError` site in the loop) -/

theorem a_grimmer_one_zero_division :
    a_grimmer 1 3 (1 / 20) 2 2 = .error "ZeroDivisionError" := by
  have hrm : realmeanOf 1 3 = 3 := by exact_mod_cast realmeanOf_intCast 1 (by norm_num) 3
  have hceil : ⌈lowerBoundOf 1 3 (1 / 20) 2⌉ = 9 := by
    unfold lowerBoundOf lsigmaOf half_unitOf
    rw [hrm, if_neg (by norm_num : ¬ (1 : ℚ) / 20 < 5 / 10 ^ 2)]
    rw [Int.ceil_eq_iff]
    push_cast
    norm_num
  have hfloor : ⌊upperBoundOf 1 3 (1 / 20) 2⌋ = 9 := by
    unfold upperBoundOf usigmaOf half_unitOf
    rw [hrm, Int.floor_eq_iff]
    push_cast
    norm_num
  unfold a_grimmer
  rw [if_neg (by norm_num : ¬ (10 : ℤ) ^ 2 < 1), if_neg (by norm_num : ¬ (1 : ℤ) = 0),
    if_neg (by simp [grimPassesB_one_three] : ¬ grimPassesB 1 3 2 = false),
    if_neg (by rw [hceil, hfloor]; omega : ¬ ⌊upperBoundOf 1 3 (1 / 20) 2⌋ <
      ⌈lowerBoundOf 1 3 (1 / 20) 2⌉),
    if_pos rfl]

/-! ### Full evaluation at `n = -1` (negative `n` returns an ordinary verdict) -/

theorem a_grimmer_neg_one :
    a_grimmer (-1) 3 1 2 2 = .ok (grimmerInconsistentVerdict 3) := by
  have hrm : realmeanOf (-1) 3 = 3 := by exact_mod_cast realmeanOf_intCast (-1) (by norm_num) 3
  have hceil : ⌈lowerBoundOf (-1) 3 1 2⌉ = -10 := by
    unfold lowerBoundOf lsigmaOf half_unitOf
    rw [hrm, if_neg (by norm_num : ¬ (1 : ℚ) < 5 / 10 ^ 2)]
    rw [Int.ceil_eq_iff]
    push_cast
    norm_num
  have hfloor : ⌊upperBoundOf (-1) 3 1 2⌋ = -12 := by
    unfold upperBoundOf usigmaOf half_unitOf
    rw [hrm, Int.floor_eq_iff]
    push_cast
    norm_num
  unfold a_grimmer
  rw [if_neg (by norm_num : ¬ (10 : ℤ) ^ 2 < -1), if_neg (by norm_num : ¬ (-1 : ℤ) = 0),
    if_neg (by simp [grimPassesB_neg_one_three] : ¬ grimPassesB (-1) 3 2 = false),
    if_pos (by rw [hceil, hfloor]; omega : ⌊upperBoundOf (-1) 3 1 2⌋ <
      ⌈lowerBoundOf (-1) 3 1 2⌉), hrm]

/-! ### Full evaluation at `n = 2`, `mean = 3`, `sd = 2` (a consistent case) -/

theorem ceil_lowerBound_two_sd2 : ⌈lowerBoundOf 2 3 2 2⌉ = 22 := by
  unfold lowerBoundOf lsigmaOf half_unitOf
  rw [realmeanOf_two_three, if_neg (by norm_num : ¬ (2 : ℚ) < 5 / 10 ^ 2)]
  rw [Int.ceil_eq_iff]
  push_cast
  norm_num

theorem floor_upperBound_two_sd2 : ⌊upperBoundOf 2 3 2 2⌋ = 22 := by
  unfold upperBoundOf usigmaOf half_unitOf
  rw [realmeanOf_two_three, Int.floor_eq_iff]
  push_cast
  norm_num

theorem matchesSD_two_22 : matchesSD 2 3 2 2 22 = true := by
  unfold matchesSD varOf
  rw [show ((((22 : ℤ) : ℚ)) - ((2 : ℤ) : ℚ) * 3 ^ 2) / (((2 : ℤ) : ℚ) - 1) =
    ((2 : ℕ) : ℚ) ^ 2 by push_cast; norm_num]
  rw [if_neg (not_lt.mpr (by positivity : (0 : ℚ) ≤ ((2 : ℕ) : ℚ) ^ 2))]
  rw [sqrtRoundHalfDown_sq 2 2, Bool.or_eq_true]
  left
  rw [decide_eq_true_eq]
  unfold eps
  norm_num

/-! ### Per-candidate evaluation for the pizzagate input `n = 18` -/

theorem realsumOf_pizza : realsumOf 18 (86 / 25) = 62 := by
  unfold realsumOf
  rw [show ((86 : ℚ) / 25 * ((18 : ℤ) : ℚ)) = 1548 / 25 by push_cast; norm_num]
  rw [show (62 : ℤ) = 61 + 1 by norm_num]
  exact pythonRound_eq_up _ 61 (by norm_num) (by norm_num) (by norm_num)

theorem realmeanOf_pizza : realmeanOf 18 (86 / 25) = 31 / 9 := by
  unfold realmeanOf
  rw [realsumOf_pizza]
  push_cast
  norm_num

theorem grimPassesB_pizza : grimPassesB 18 (86 / 25) 2 = true := by
  unfold grimPassesB
  rw [realmeanOf_pizza]
  have hnh : ¬ isHalfway (31 / 9) 2 := by
    unfold isHalfway eps
    have hf : ⌊(31 : ℚ) / 9 * 10 ^ 2⌋ = 344 := by
      rw [Int.floor_eq_iff]
      push_cast
      norm_num
    rw [hf, not_lt, le_abs]
    norm_num
  have hd : round_half_down (31 / 9) 2 = 86 / 25 := by
    unfold round_half_down
    rw [if_neg hnh]
    rw [show pythonRound ((31 : ℚ) / 9 * 10 ^ 2) = 344 from
      pythonRound_eq_down _ 344 (by norm_num) (by norm_num)]
    norm_num
  rw [hd, Bool.or_eq_true]
  left
  rw [decide_eq_true_eq, sub_self, abs_zero]
  unfold eps
  norm_num

theorem ceil_lowerBound_pizza : ⌈lowerBoundOf 18 (86 / 25) (247 / 100) 2⌉ = 314 := by
  unfold lowerBoundOf lsigmaOf half_unitOf
  rw [realmeanOf_pizza, if_neg (by norm_num : ¬ (247 : ℚ) / 100 < 5 / 10 ^ 2)]
  rw [Int.ceil_eq_iff]
  push_cast
  norm_num

theorem floor_upperBound_pizza : ⌊upperBoundOf 18 (86 / 25) (247 / 100) 2⌋ = 321 := by
  unfold upperBoundOf usigmaOf half_unitOf
  rw [realmeanOf_pizza, Int.floor_eq_iff]
  push_cast
  norm_num

theorem candidatesOf_pizza : candidatesOf 18 (86 / 25) (247 / 100) 2 =
    [314, 315, 316, 317, 318, 319, 320, 321] := by
  unfold candidatesOf
  rw [ceil_lowerBound_pizza, floor_upperBound_pizza]
  rfl

theorem matchesSD_pizza_314 : matchesSD 18 (31 / 9) (247 / 100) 2 314 = false := by
  unfold matchesSD
  have hv : varOf 18 (31 / 9) 314 = 904 / 153 := by unfold varOf; push_cast; norm_num
  rw [hv, if_neg (by norm_num : ¬ (904 : ℚ) / 153 < 0)]
  have hm : sqrtScaledFloor (904 / 153) (10 ^ 2) = 243 := by
    apply sqrtScaledFloor_eq <;> norm_num
  have hnh : ¬ sqrtIsHalfway (904 / 153) 2 :=
    not_sqrtIsHalfway_low _ _ _ hm (by unfold eps; norm_num)
  have hb : sqrtBankers (904 / 153) (10 ^ 2) = 243 :=
    sqrtBankers_eval_down _ _ _ hm (by norm_num)
  rw [sqrtRoundHalfDown_eval _ _ _ hnh hb, sqrtRoundHalfUp_eval _ _ _ hnh hb]
  rw [Bool.or_eq_false_iff]
  constructor <;> rw [decide_eq_false_iff_not, not_lt, le_abs] <;> unfold eps <;> norm_num

theorem matchesSD_pizza_315 : matchesSD 18 (31 / 9) (247 / 100) 2 315 = false := by
  unfold matchesSD
  have hv : varOf 18 (31 / 9) 315 = 913 / 153 := by unfold varOf; push_cast; norm_num
  rw [hv, if_neg (by norm_num : ¬ (913 : ℚ) / 153 < 0)]
  have hm : sqrtScaledFloor (913 / 153) (10 ^ 2) = 244 := by
    apply sqrtScaledFloor_eq <;> norm_num
  have hnh : ¬ sqrtIsHalfway (913 / 153) 2 :=
    not_sqrtIsHalfway_low _ _ _ hm (by unfold eps; norm_num)
  have hb : sqrtBankers (913 / 153) (10 ^ 2) = 244 :=
    sqrtBankers_eval_down _ _ _ hm (by norm_num)
  rw [sqrtRoundHalfDown_eval _ _ _ hnh hb, sqrtRoundHalfUp_eval _ _ _ hnh hb]
  rw [Bool.or_eq_false_iff]
  constructor <;> rw [decide_eq_false_iff_not, not_lt, le_abs] <;> unfold eps <;> norm_num

theorem matchesSD_pizza_316 : matchesSD 18 (31 / 9) (247 / 100) 2 316 = false := by
  unfold matchesSD
  have hv : varOf 18 (31 / 9) 316 = 922 / 153 := by unfold varOf; push_cast; norm_num
  rw [hv, if_neg (by norm_num : ¬ (922 : ℚ) / 153 < 0)]
  have hm : sqrtScaledFloor (922 / 153) (10 ^ 2) = 245 := by
    apply sqrtScaledFloor_eq <;> norm_num
  have hnh : ¬ sqrtIsHalfway (922 / 153) 2 :=
    not_sqrtIsHalfway_low _ _ _ hm (by unfold eps; norm_num)
  have hb : sqrtBankers (922 / 153) (10 ^ 2) = 245 :=
    sqrtBankers_eval_down _ _ _ hm (by norm_num)
  rw [sqrtRoundHalfDown_eval _ _ _ hnh hb, sqrtRoundHalfUp_eval _ _ _ hnh hb]
  rw [Bool.or_eq_false_iff]
  constructor <;> rw [decide_eq_false_iff_not, not_lt, le_abs] <;> unfold eps <;> norm_num

theorem matchesSD_pizza_317 : matchesSD 18 (31 / 9) (247 / 100) 2 317 = true := by
  unfold matchesSD
  have hv : varOf 18 (31 / 9) 317 = 931 / 153 := by unfold varOf; push_cast; norm_num
  rw [hv, if_neg (by norm_num : ¬ (931 : ℚ) / 153 < 0)]
  have hm : sqrtScaledFloor (931 / 153) (10 ^ 2) = 246 := by
    apply sqrtScaledFloor_eq <;> norm_num
  have hnh : ¬ sqrtIsHalfway (931 / 153) 2 :=
    not_sqrtIsHalfway_high _ _ _ hm (by unfold eps; norm_num)
  have hb : sqrtBankers (931 / 153) (10 ^ 2) = 247 := by
    rw [show (247 : ℤ) = 246 + 1 by norm_num]
    exact sqrtBankers_eval_up _ _ _ hm (by norm_num)
  rw [sqrtRoundHalfDown_eval _ _ _ hnh hb, Bool.or_eq_true]
  left
  rw [decide_eq_true_eq]
  rw [show (((247 : ℤ)) : ℚ) / 10 ^ 2 - 247 / 100 = 0 by push_cast; norm_num, abs_zero]
  unfold eps
  norm_num

theorem matchesSD_pizza_318 : matchesSD 18 (31 / 9) (247 / 100) 2 318 = false := by
  unfold matchesSD
  have hv : varOf 18 (31 / 9) 318 = 940 / 153 := by unfold varOf; push_cast; norm_num
  rw [hv, if_neg (by norm_num : ¬ (940 : ℚ) / 153 < 0)]
  have hm : sqrtScaledFloor (940 / 153) (10 ^ 2) = 247 := by
    apply sqrtScaledFloor_eq <;> norm_num
  have hnh : ¬ sqrtIsHalfway (940 / 153) 2 :=
    not_sqrtIsHalfway_high _ _ _ hm (by unfold eps; norm_num)
  have hb : sqrtBankers (940 / 153) (10 ^ 2) = 248 := by
    rw [show (248 : ℤ) = 247 + 1 by norm_num]
    exact sqrtBankers_eval_up _ _ _ hm (by norm_num)
  rw [sqrtRoundHalfDown_eval _ _ _ hnh hb, sqrtRoundHalfUp_eval _ _ _ hnh hb]
  rw [Bool.or_eq_false_iff]
  constructor <;> rw [decide_eq_false_iff_not, not_lt, le_abs] <;> unfold eps <;> norm_num

theorem matchesSD_pizza_319 : matchesSD 18 (31 / 9) (247 / 100) 2 319 = false := by
  unfold matchesSD
  have hv : varOf 18 (31 / 9) 319 = 949 / 153 := by unfold varOf; push_cast; norm_num
  rw [hv, if_neg (by norm_num : ¬ (949 : ℚ) / 153 < 0)]
  have hm : sqrtScaledFloor (949 / 153) (10 ^ 2) = 249 := by
    apply sqrtScaledFloor_eq <;> norm_num
  have hnh : ¬ sqrtIsHalfway (949 / 153) 2 :=
    not_sqrtIsHalfway_low _ _ _ hm (by unfold eps; norm_num)
  have hb : sqrtBankers (949 / 153) (10 ^ 2) = 249 :=
    sqrtBankers_eval_down _ _ _ hm (by norm_num)
  rw [sqrtRoundHalfDown_eval _ _ _ hnh hb, sqrtRoundHalfUp_eval _ _ _ hnh hb]
  rw [Bool.or_eq_false_iff]
  constructor <;> rw [decide_eq_false_iff_not, not_lt, le_abs] <;> unfold eps <;> norm_num

theorem matchesSD_pizza_320 : matchesSD 18 (31 / 9) (247 / 100) 2 320 = false := by
  unfold matchesSD
  have hv : varOf 18 (31 / 9) 320 = 958 / 153 := by unfold varOf; push_cast; norm_num
  rw [hv, if_neg (by norm_num : ¬ (958 : ℚ) / 153 < 0)]
  have hm : sqrtScaledFloor (958 / 153) (10 ^ 2) = 250 := by
    apply sqrtScaledFloor_eq <;> norm_num
  have hnh : ¬ sqrtIsHalfway (958 / 153) 2 :=
    not_sqrtIsHalfway_low _ _ _ hm (by unfold eps; norm_num)
  have hb : sqrtBankers (958 / 153) (10 ^ 2) = 250 :=
    sqrtBankers_eval_down _ _ _ hm (by norm_num)
  rw [sqrtRoundHalfDown_eval _ _ _ hnh hb, sqrtRoundHalfUp_eval _ _ _ hnh hb]
  rw [Bool.or_eq_false_iff]
  constructor <;> rw [decide_eq_false_iff_not, not_lt, le_abs] <;> unfold eps <;> norm_num

theorem matchesSD_pizza_321 : matchesSD 18 (31 / 9) (247 / 100) 2 321 = false := by
  unfold matchesSD
  have hv : varOf 18 (31 / 9) 321 = 967 / 153 := by unfold varOf; push_cast; norm_num
  rw [hv, if_neg (by norm_num : ¬ (967 : ℚ) / 153 < 0)]
  have hm : sqrtScaledFloor (967 / 153) (10 ^ 2) = 251 := by
    apply sqrtScaledFloor_eq <;> norm_num
  have hnh : ¬ sqrtIsHalfway (967 / 153) 2 :=
    not_sqrtIsHalfway_low _ _ _ hm (by unfold eps; norm_num)
  have hb : sqrtBankers (967 / 153) (10 ^ 2) = 251 :=
    sqrtBankers_eval_down _ _ _ hm (by norm_num)
  rw [sqrtRoundHalfDown_eval _ _ _ hnh hb, sqrtRoundHalfUp_eval _ _ _ hnh hb]
  rw [Bool.or_eq_false_iff]
  constructor <;> rw [decide_eq_false_iff_not, not_lt, le_abs] <;> unfold eps <;> norm_num

theorem matchesSDList_pizza : matchesSDList 18 (86 / 25) (247 / 100) 2 =
    [false, false, false, true, false, false, false, false] := by
  unfold matchesSDList
  rw [candidatesOf_pizza, realmeanOf_pizza]
  simp only [List.map_cons, List.map_nil, matchesSD_pizza_314, matchesSD_pizza_315,
    matchesSD_pizza_316, matchesSD_pizza_317, matchesSD_pizza_318, matchesSD_pizza_319,
    matchesSD_pizza_320, matchesSD_pizza_321]

theorem thirdTestList_pizza : thirdTestList 18 (86 / 25) (247 / 100) 2 =
    [false, false, false, false, false, false, false, false] := by
  rw [thirdTestList_eq_map, candidatesOf_pizza, realmeanOf_pizza, realsumOf_pizza]
  simp only [List.map_cons, List.map_nil, matchesSD_pizza_314, matchesSD_pizza_315,
    matchesSD_pizza_316, matchesSD_pizza_317, matchesSD_pizza_318, matchesSD_pizza_319,
    matchesSD_pizza_320, matchesSD_pizza_321, Bool.false_and, Bool.true_and]
  norm_num

/-! ### Families of arbitrarily large sd values with opposite verdicts -/

theorem grimPassesB_ten_three : grimPassesB 10 3 2 = true := by
  apply grimPassesB_of_realmean_self
  · exact_mod_cast realmeanOf_intCast 10 (by norm_num) 3
  · unfold round_half_down
    rw [if_neg not_isHalfway_3]
    rw [show ((3 : ℚ) * 10 ^ 2) = ((300 : ℤ) : ℚ) by norm_num, pythonRound_intCast]
    norm_num

/-- For `n = 10`, `mean = 3` and any even integer `sd = 2m ≥ 2`, the engine
returns `consistent`: the candidate `x = 36m² + 90` has variance exactly
`(2m)²`, whose square root rounds to `sd` itself, and it has the parity of
`realsum = 30`. -/
theorem a_grimmer_ten_even_sd (m : ℕ) (hm : 1 ≤ m) :
    a_grimmer 10 3 ((2 * m : ℕ) : ℚ) 2 2 = .ok (consistentVerdict 3) := by
  have hm1 : (1 : ℚ) ≤ (m : ℚ) := by exact_mod_cast hm
  have hrm : realmeanOf 10 3 = 3 := by exact_mod_cast realmeanOf_intCast 10 (by norm_num) 3
  have hcond : ¬ ((2 * m : ℕ) : ℚ) < 5 / 10 ^ 2 := by
    rw [not_lt]
    push_cast
    linarith
  have hlower : lowerBoundOf 10 3 ((2 * m : ℕ) : ℚ) 2 ≤ ((36 * (m : ℤ) ^ 2 + 90 : ℤ) : ℚ) := by
    unfold lowerBoundOf lsigmaOf half_unitOf
    rw [hrm, if_neg hcond]
    push_cast
    nlinarith
  have hupper : ((36 * (m : ℤ) ^ 2 + 90 : ℤ) : ℚ) ≤ upperBoundOf 10 3 ((2 * m : ℕ) : ℚ) 2 := by
    unfold upperBoundOf usigmaOf half_unitOf
    rw [hrm]
    push_cast
    nlinarith
  have hceil : ⌈lowerBoundOf 10 3 ((2 * m : ℕ) : ℚ) 2⌉ ≤ 36 * (m : ℤ) ^ 2 + 90 :=
    Int.ceil_le.mpr hlower
  have hfloor : 36 * (m : ℤ) ^ 2 + 90 ≤ ⌊upperBoundOf 10 3 ((2 * m : ℕ) : ℚ) 2⌋ :=
    Int.le_floor.mpr hupper
  have hsum : realsumOf 10 3 = 30 := by
    unfold realsumOf
    rw [show ((3 : ℚ) * ((10 : ℤ) : ℚ)) = ((30 : ℤ) : ℚ) by push_cast; ring, pythonRound_intCast]
  have hvar : varOf 10 3 (36 * (m : ℤ) ^ 2 + 90) = ((2 * m : ℕ) : ℚ) ^ 2 := by
    unfold varOf
    push_cast
    rw [div_eq_iff (by norm_num : ((10 : ℚ)) - 1 ≠ 0)]
    ring
  have hmatch : matchesSD 10 (realmeanOf 10 3) ((2 * m : ℕ) : ℚ) 2
      (36 * (m : ℤ) ^ 2 + 90) = true := by
    rw [hrm]
    unfold matchesSD
    rw [hvar, if_neg (not_lt.mpr (by positivity : (0 : ℚ) ≤ ((2 * m : ℕ) : ℚ) ^ 2))]
    rw [sqrtRoundHalfDown_sq (2 * m) 2, Bool.or_eq_true]
    left
    rw [decide_eq_true_eq, sub_self, abs_zero]
    unfold eps
    norm_num
  have hpar : (36 * (m : ℤ) ^ 2 + 90) % 2 = realsumOf 10 3 % 2 := by
    rw [hsum]
    obtain ⟨y, hy⟩ : ∃ y : ℤ, (36 * (m : ℤ) ^ 2 + 90) = 2 * y :=
      ⟨18 * (m : ℤ) ^ 2 + 45, by ring⟩
    rw [hy]
    omega
  have hanym : (matchesSDList 10 3 ((2 * m : ℕ) : ℚ) 2).any id = true :=
    (matchesSDList_any_iff _ _ _ _).mpr ⟨_, hceil, hfloor, hmatch⟩
  have hanyt : (thirdTestList 10 3 ((2 * m : ℕ) : ℚ) 2).any id = true :=
    (thirdTestList_any_iff _ _ _ _).mpr ⟨_, hceil, hfloor, hmatch, hpar⟩
  unfold a_grimmer
  rw [if_neg (by norm_num : ¬ (10 : ℤ) ^ 2 < 10), if_neg (by norm_num : ¬ (10 : ℤ) = 0),
    if_neg (by simp [grimPassesB_ten_three] : ¬ grimPassesB 10 3 2 = false),
    if_neg (not_lt.mpr (le_trans hceil hfloor)),
    if_neg (by norm_num : ¬ (10 : ℤ) = 1),
    if_neg (by rw [hanym]; simp),
    if_neg (by rw [hanyt]; simp),
    hrm]

theorem sqrtRoundHalfDown_shape (v : ℚ) (d : ℕ) :
    ∃ j : ℤ, sqrtRoundHalfDown v d = (j : ℚ) / 10 ^ d := by
  unfold sqrtRoundHalfDown
  split_ifs
  · exact ⟨_, rfl⟩
  · exact ⟨_, rfl⟩

theorem sqrtRoundHalfUp_shape (v : ℚ) (d : ℕ) :
    ∃ j : ℤ, sqrtRoundHalfUp v d = (j : ℚ) / 10 ^ d := by
  unfold sqrtRoundHalfUp
  split_ifs
  · exact ⟨_, rfl⟩
  · exact ⟨_, rfl⟩

/-- No two-decimal rounded value `j/100` lies within `1e-9` of `K + 1/3`. -/
theorem third_no_round (j : ℤ) (K : ℕ) :
    ¬ (|(j : ℚ) / 10 ^ 2 - ((K : ℚ) + 1 / 3)| < eps) := by
  intro h
  have he : (j : ℚ) / 10 ^ 2 - ((K : ℚ) + 1 / 3) =
      ((3 * j - 300 * (K : ℤ) - 100 : ℤ) : ℚ) / 300 := by
    push_cast
    ring
  rw [he, abs_div, show |(300 : ℚ)| = 300 by norm_num, ← Int.cast_abs,
    div_lt_iff (by norm_num : (0 : ℚ) < 300)] at h
  have h1 : ((|3 * j - 300 * (K : ℤ) - 100| : ℤ) : ℚ) < 1 :=
    lt_trans h (by unfold eps; norm_num)
  have h2 : |3 * j - 300 * (K : ℤ) - 100| < 1 := by exact_mod_cast h1
  have h3 := abs_lt.mp h2
  omega

/-- For `sd = K + 1/3` no candidate ever passes the SD-rounding test. -/
theorem matchesSD_third_false (rm : ℚ) (K : ℕ) (x : ℤ) :
    matchesSD 10 rm ((K : ℚ) + 1 / 3) 2 x = false := by
  unfold matchesSD
  split_ifs with hv
  · rfl
  · rw [Bool.or_eq_false_iff]
    constructor <;> rw [decide_eq_false_iff_not]
    · obtain ⟨j, hj⟩ := sqrtRoundHalfDown_shape (varOf 10 rm x) 2
      rw [hj]
      exact third_no_round j K
    · obtain ⟨j, hj⟩ := sqrtRoundHalfUp_shape (varOf 10 rm x) 2
      rw [hj]
      exact third_no_round j K

/-- For `n = 10`, `mean = 3` and any `sd = K + 1/3`, the engine returns
`GRIMMER inconsistent` (regardless of whether the candidate range is
empty). -/
theorem a_grimmer_ten_third (K : ℕ) :
    a_grimmer 10 3 ((K : ℚ) + 1 / 3) 2 2 = .ok (grimmerInconsistentVerdict 3) := by
  have hrm : realmeanOf 10 3 = 3 := by exact_mod_cast realmeanOf_intCast 10 (by norm_num) 3
  unfold a_grimmer
  rw [if_neg (by norm_num : ¬ (10 : ℤ) ^ 2 < 10), if_neg (by norm_num : ¬ (10 : ℤ) = 0),
    if_neg (by simp [grimPassesB_ten_three] : ¬ grimPassesB 10 3 2 = false)]
  by_cases hrange : ⌊upperBoundOf 10 3 ((K : ℚ) + 1 / 3) 2⌋ <
      ⌈lowerBoundOf 10 3 ((K : ℚ) + 1 / 3) 2⌉
  · rw [if_pos hrange, hrm]
  · rw [if_neg hrange, if_neg (by norm_num : ¬ (10 : ℤ) = 1)]
    have hany : (matchesSDList 10 3 ((K : ℚ) + 1 / 3) 2).any id = false := by
      rw [List.any_eq_false]
      intro b hb
      unfold matchesSDList at hb
      rw [List.mem_map] at hb
      obtain ⟨x, -, rfl⟩ := hb
      simp only [id_eq, matchesSD_third_false (realmeanOf 10 3) K x]
      simp
    rw [if_pos hany, hrm]

/-! ### Claim theorems -/

/-- C1: for every valid input (`n ≥ 2` per the data model) on which the
applicability guard (`n ≤ 10^decimals_mean`) and the GRIM stage both pass,
`a_grimmer` returns the `consistent` verdict (grim and grimmer flags true,
reconstructed mean `realmean`) if and only if some integer `x` in the
inclusive range `[⌈lower_bound⌉, ⌊upper_bound⌋]` both passes the SD-rounding
test (`var ≥ 0` and `√var` rounded half-down or half-up to `decimals_sd`
places equals `sd` within `1e-9`) and has the parity of
`realsum = round(mean*n)`; in every other such case it returns the
`GRIMMER inconsistent` verdict with `grim_passed = true` and
`grimmer_passed = false`. -/
theorem a_grimmer_consistent_iff_candidate (n : ℤ) (mean sd : ℚ) (dm ds : ℕ)
    (hn : 2 ≤ n) (hguard : n ≤ 10 ^ dm) (hgrim : grimPassesB n mean dm = true) :
    (a_grimmer n mean sd dm ds = .ok (consistentVerdict (realmeanOf n mean)) ↔
      ∃ x : ℤ, ⌈lowerBoundOf n mean sd ds⌉ ≤ x ∧ x ≤ ⌊upperBoundOf n mean sd ds⌋ ∧
        matchesSD n (realmeanOf n mean) sd ds x = true ∧ x % 2 = realsumOf n mean % 2) ∧
    ((¬ ∃ x : ℤ, ⌈lowerBoundOf n mean sd ds⌉ ≤ x ∧ x ≤ ⌊upperBoundOf n mean sd ds⌋ ∧
        matchesSD n (realmeanOf n mean) sd ds x = true ∧ x % 2 = realsumOf n mean % 2) →
      a_grimmer n mean sd dm ds = .ok (grimmerInconsistentVerdict (realmeanOf n mean))) := by
  have hne1 : (Except.ok (grimmerInconsistentVerdict (realmeanOf n mean)) :
      Except String Verdict) ≠ .ok (consistentVerdict (realmeanOf n mean)) := by
    simp [grimmerInconsistentVerdict, consistentVerdict]
  unfold a_grimmer
  rw [if_neg (not_lt.mpr hguard), if_neg (by omega : ¬ n = 0),
    if_neg (by simp [hgrim] : ¬ grimPassesB n mean dm = false)]
  by_cases hrange : ⌊upperBoundOf n mean sd ds⌋ < ⌈lowerBoundOf n mean sd ds⌉
  · rw [if_pos hrange]
    refine ⟨⟨fun h => absurd h hne1, ?_⟩, fun _ => rfl⟩
    rintro ⟨x, h1, h2, -, -⟩
    omega
  · rw [if_neg hrange, if_neg (by omega : ¬ n = 1)]
    by_cases hm : (matchesSDList n mean sd ds).any id = false
    · rw [if_pos hm]
      have hnex : ¬ ∃ x : ℤ, ⌈lowerBoundOf n mean sd ds⌉ ≤ x ∧
          x ≤ ⌊upperBoundOf n mean sd ds⌋ ∧
          matchesSD n (realmeanOf n mean) sd ds x = true ∧
          x % 2 = realsumOf n mean % 2 := by
        rintro ⟨x, h1, h2, h3, -⟩
        have hany : (matchesSDList n mean sd ds).any id = true :=
          (matchesSDList_any_iff n mean sd ds).mpr ⟨x, h1, h2, h3⟩
        rw [hany] at hm
        exact Bool.noConfusion hm
      exact ⟨⟨fun h => absurd h hne1, fun hex => absurd hex hnex⟩, fun _ => rfl⟩
    · rw [if_neg hm]
      by_cases ht : (thirdTestList n mean sd ds).any id = false
      · rw [if_pos ht]
        have hnex : ¬ ∃ x : ℤ, ⌈lowerBoundOf n mean sd ds⌉ ≤ x ∧
            x ≤ ⌊upperBoundOf n mean sd ds⌋ ∧
            matchesSD n (realmeanOf n mean) sd ds x = true ∧
            x % 2 = realsumOf n mean % 2 := by
          intro hex
          have hany : (thirdTestList n mean sd ds).any id = true :=
            (thirdTestList_any_iff n mean sd ds).mpr hex
          rw [hany] at ht
          exact Bool.noConfusion ht
        exact ⟨⟨fun h => absurd h hne1, fun hex => absurd hex hnex⟩, fun _ => rfl⟩
      · rw [if_neg ht]
        have hex := (thirdTestList_any_iff n mean sd ds).mp (by
          cases hb : (thirdTestList n mean sd ds).any id
          · exact absurd hb ht
          · rfl)
        exact ⟨⟨fun _ => hex, fun _ => rfl⟩, fun hnex => absurd hex hnex⟩

/-- Witness for C1: the concrete consistent case `n = 2`, `mean = 3`,
`sd = 2` (candidate `x = 22` passes both tests), obtained from the claim
theorem with every hypothesis discharged. -/
theorem a_grimmer_consistent_iff_candidate_witness :
    a_grimmer 2 3 2 2 2 = .ok (consistentVerdict (realmeanOf 2 3)) :=
  (a_grimmer_consistent_iff_candidate 2 3 2 2 2 (by norm_num) (by norm_num)
    grimPassesB_two_three).1.mpr
    ⟨22, by rw [ceil_lowerBound_two_sd2], by rw [floor_upperBound_two_sd2],
      by rw [realmeanOf_two_three]; exact matchesSD_two_22,
      by
        rw [show realsumOf 2 3 = 6 from by
          unfold realsumOf
          rw [show ((3 : ℚ) * ((2 : ℤ) : ℚ)) = ((6 : ℤ) : ℚ) by push_cast; ring,
            pythonRound_intCast]]
        decide⟩

/-- C3 (counterexample): for `n = 1000 > 10^2` the engine does return
immediately with both flags null and the mean echoed, but the `result`
string is `"GRIM inapplicable (n too large for reported precision)"`, not
the exact string `"GRIM inapplicable"` stated by the claim. -/
theorem a_grimmer_inapplicable_string_counterexample :
    a_grimmer 1000 (86 / 25) (247 / 100) 2 2 = .ok (inapplicableVerdict (86 / 25)) ∧
    (inapplicableVerdict (86 / 25)).result ≠ "GRIM inapplicable" := by
  constructor
  · unfold a_grimmer
    rw [if_pos (by norm_num)]
  · unfold inapplicableVerdict
    decide

/-- C3 (amended): for every input with `n > 10^decimals_mean`, `a_grimmer`
returns immediately the verdict with
`result = "GRIM inapplicable (n too large for reported precision)"`,
`grim_passed = grimmer_passed = null` and `reconstructed_mean` equal to the
reported mean (echoed, not recomputed), with none of the later arithmetic
stages reflected in the verdict. -/
theorem a_grimmer_inapplicable_guard (n : ℤ) (mean sd : ℚ) (dm ds : ℕ)
    (h : 10 ^ dm < n) :
    a_grimmer n mean sd dm ds =
      .ok ⟨"GRIM inapplicable (n too large for reported precision)", none, none, mean⟩ := by
  unfold a_grimmer
  rw [if_pos h]
  rfl

/-- Witness for C3: the spec's own instance `n = 1000`, `decimals_mean = 2`. -/
theorem a_grimmer_inapplicable_guard_witness :
    a_grimmer 1000 (86 / 25) (247 / 100) 2 2 =
      .ok ⟨"GRIM inapplicable (n too large for reported precision)", none, none, 86 / 25⟩ :=
  a_grimmer_inapplicable_guard 1000 (86 / 25) (247 / 100) 2 2 (by norm_num)

/-- C4 (counterexample): the claim admits every integer `n ≥ 1`, but at
`n = 1`, `mean = 3`, `sd = 0.05` the source raises `ZeroDivisionError`
(`var = (x - n*realmean**2)/(n-1)` divides by zero on the first candidate),
modelled here as an `Except.error`. -/
theorem a_grimmer_n_one_zero_division :
    a_grimmer 1 3 (1 / 20) 2 2 = .error "ZeroDivisionError" :=
  a_grimmer_one_zero_division

/-- C4 (amended): for every valid input with `n ≥ 2` (the bound the data
model itself gives, since the variance divisor is `n-1`), finite `mean` and
`sd ≥ 0`, `a_grimmer` raises no exception and returns one of the four
verdict outcomes as data. -/
theorem a_grimmer_total_of_two_le (n : ℤ) (mean sd : ℚ) (dm ds : ℕ)
    (hn : 2 ≤ n) (hsd : 0 ≤ sd) :
    ∃ v : Verdict, a_grimmer n mean sd dm ds = .ok v ∧
      (v.result = "consistent" ∨ v.result = "GRIMMER inconsistent" ∨
       v.result = "GRIM inconsistent" ∨
       v.result = "GRIM inapplicable (n too large for reported precision)") := by
  unfold a_grimmer
  split_ifs with h1 h2 h3 h4 h5 h6 h7
  · exact ⟨_, rfl, by right; right; right; rfl⟩
  · omega
  · exact ⟨_, rfl, by right; right; left; rfl⟩
  · exact ⟨_, rfl, by right; left; rfl⟩
  · omega
  · exact ⟨_, rfl, by right; left; rfl⟩
  · exact ⟨_, rfl, by right; left; rfl⟩
  · exact ⟨_, rfl, by left; rfl⟩

/-- Witness for C4: the pizzagate input `n = 18` satisfies the hypotheses. -/
theorem a_grimmer_total_of_two_le_witness :
    ∃ v : Verdict, a_grimmer 18 (86 / 25) (247 / 100) 2 2 = .ok v ∧
      (v.result = "consistent" ∨ v.result = "GRIMMER inconsistent" ∨
       v.result = "GRIM inconsistent" ∨
       v.result = "GRIM inapplicable (n too large for reported precision)") :=
  a_grimmer_total_of_two_le 18 (86 / 25) (247 / 100) 2 2 (by norm_num) (by norm_num)

/-- C5 (counterexample): for the malformed input `n = -1` (with
`mean = 3`, `sd = 1`) the engine signals nothing: it silently returns an
ordinary `GRIMMER inconsistent` verdict instead of an `InvalidInput`
failure. -/
theorem a_grimmer_negative_n_no_invalid_input :
    a_grimmer (-1) 3 1 2 2 = .ok (grimmerInconsistentVerdict 3) :=
  a_grimmer_neg_one

/-- C5 (amended): the engine performs no input validation: for every
`n < 0` it returns an ordinary verdict (no failure of any kind), and for
`n = 0` it raises `ZeroDivisionError` at `realsum / n` rather than
signalling an `InvalidInput` failure.  (Non-finite `mean`/`sd` do not exist
in the exact-rational model.) -/
theorem a_grimmer_no_validation :
    (∀ (n : ℤ) (mean sd : ℚ) (dm ds : ℕ), n < 0 →
      ∃ v : Verdict, a_grimmer n mean sd dm ds = .ok v) ∧
    (∀ (mean sd : ℚ) (dm ds : ℕ), a_grimmer 0 mean sd dm ds = .error "ZeroDivisionError") := by
  constructor
  · intro n mean sd dm ds hn
    unfold a_grimmer
    split_ifs with h1 h2 h3 h4 h5 h6 h7 <;> first | exact ⟨_, rfl⟩ | omega
  · intro mean sd dm ds
    unfold a_grimmer
    rw [if_neg (not_lt.mpr (by positivity : (0 : ℤ) ≤ 10 ^ dm)), if_pos rfl]

/-- Witness for C5 (amended): both conjuncts instantiated at concrete
malformed inputs. -/
theorem a_grimmer_no_validation_witness :
    (∃ v : Verdict, a_grimmer (-1) 3 1 2 2 = .ok v) ∧
    a_grimmer 0 3 1 2 2 = .error "ZeroDivisionError" :=
  ⟨a_grimmer_no_validation.1 (-1) 3 1 2 2 (by norm_num),
   a_grimmer_no_validation.2 3 1 2 2⟩

/-- C6: in every verdict the engine returns, `grimmer_passed` is non-null
only when `grim_passed = true`: the GRIMMER stage is never evaluated unless
the GRIM stage succeeded. -/
theorem grimmer_passed_implies_grim_passed (n : ℤ) (mean sd : ℚ) (dm ds : ℕ)
    (v : Verdict) (h : a_grimmer n mean sd dm ds = .ok v)
    (h2 : v.grimmer_passed ≠ none) : v.grim_passed = some true := by
  rcases a_grimmer_ok_shape n mean sd dm ds v h with rfl | rfl | rfl | rfl
  · exact absurd rfl h2
  · exact absurd rfl h2
  · rfl
  · rfl

/-- Witness for C6: the parity-failure verdict at `n = 2`, `mean = 3`,
`sd = 1` has `grimmer_passed = some false ≠ none` and `grim_passed = some
true`. -/
theorem grimmer_passed_implies_grim_passed_witness :
    (grimmerInconsistentVerdict 3).grim_passed = some true :=
  grimmer_passed_implies_grim_passed 2 3 1 2 2 (grimmerInconsistentVerdict 3)
    a_grimmer_two_three_one (by simp [grimmerInconsistentVerdict])

/-- C7 (counterexample): in the guard branch the claim fails: at `n = 101`,
`mean = 1/3` (where `101 > 10^2` triggers the guard) the verdict's
`reconstructed_mean` is the echoed `1/3`, which is not of the form
`integer/101` at all. -/
theorem reconstructed_mean_guard_counterexample :
    a_grimmer 101 (1 / 3) 1 2 2 = .ok (inapplicableVerdict (1 / 3)) ∧
    (inapplicableVerdict (1 / 3)).reconstructed_mean = 1 / 3 ∧
    ∀ k : ℤ, ((k : ℚ)) / ((101 : ℤ) : ℚ) ≠ 1 / 3 := by
  refine ⟨?_, rfl, ?_⟩
  · unfold a_grimmer
    rw [if_pos (by norm_num)]
  · intro k h
    have h3 : (3 : ℚ) * (k : ℚ) = 101 := by
      field_simp at h
      linarith
    have h4 : (3 : ℤ) * k = 101 := by exact_mod_cast h3
    omega

/-- C7 (amended): in every verdict produced after the applicability guard
passes (`0 < n ≤ 10^decimals_mean`), `reconstructed_mean` is
`realmean = round(mean*n)/n`, a rational of the form integer`/n` minimizing
the distance to the reported mean, returned even when the verdict is
negative; the guard branch instead echoes the reported mean unchanged. -/
theorem reconstructed_mean_nearest (n : ℤ) (mean sd : ℚ) (dm ds : ℕ) (v : Verdict)
    (hn : 0 < n) (hguard : n ≤ 10 ^ dm) (h : a_grimmer n mean sd dm ds = .ok v) :
    v.reconstructed_mean = ((realsumOf n mean : ℤ) : ℚ) / (n : ℚ) ∧
    ∀ k : ℤ, |((realsumOf n mean : ℤ) : ℚ) / (n : ℚ) - mean| ≤
      |((k : ℚ)) / (n : ℚ) - mean| := by
  constructor
  · unfold a_grimmer at h
    rw [if_neg (not_lt.mpr hguard), if_neg (by omega : ¬ n = 0)] at h
    split_ifs at h <;>
      first
        | exact Except.noConfusion h
        | (injection h with h
           rw [← h]
           rfl)
  · intro k
    have hn0 : (0 : ℚ) < (n : ℚ) := by exact_mod_cast hn
    have key := pythonRound_nearest (mean * (n : ℚ)) k
    have e1 : ((realsumOf n mean : ℤ) : ℚ) / (n : ℚ) - mean =
        (((realsumOf n mean : ℤ) : ℚ) - mean * (n : ℚ)) / (n : ℚ) := by
      field_simp
      ring
    have e2 : ((k : ℚ)) / (n : ℚ) - mean = ((k : ℚ) - mean * (n : ℚ)) / (n : ℚ) := by
      field_simp
      ring
    rw [e1, e2, abs_div, abs_div,
      div_le_div_iff_of_pos_right (abs_pos.mpr (ne_of_gt hn0))]
    exact key

/-- Witness for C7 (amended): the GRIM-inconsistent example `n = 10`,
`mean = 3.45` has `reconstructed_mean = 34/10 = realsum/n`. -/
theorem reconstructed_mean_nearest_witness :
    (grimInconsistentVerdict (17 / 5)).reconstructed_mean =
      ((realsumOf 10 (69 / 20) : ℤ) : ℚ) / ((10 : ℤ) : ℚ) :=
  (reconstructed_mean_nearest 10 (69 / 20) (3 / 2) 2 2 (grimInconsistentVerdict (17 / 5))
    (by norm_num) (by norm_num) a_grimmer_ten_345).1

/-- C10: the result string of every returned verdict uniquely determines the
two pass flags: `consistent` goes with `(some true, some true)`,
`GRIMMER inconsistent` with `(some true, some false)`, `GRIM inconsistent`
with `(some false, none)`, and the GRIM-inapplicable result with
`(none, none)`; no other combination is ever returned. -/
theorem result_string_determines_flags (n : ℤ) (mean sd : ℚ) (dm ds : ℕ)
    (v : Verdict) (h : a_grimmer n mean sd dm ds = .ok v) :
    (v.result = "consistent" ∧ v.grim_passed = some true ∧
      v.grimmer_passed = some true) ∨
    (v.result = "GRIMMER inconsistent" ∧ v.grim_passed = some true ∧
      v.grimmer_passed = some false) ∨
    (v.result = "GRIM inconsistent" ∧ v.grim_passed = some false ∧
      v.grimmer_passed = none) ∨
    (v.result = "GRIM inapplicable (n too large for reported precision)" ∧
      v.grim_passed = none ∧ v.grimmer_passed = none) := by
  rcases a_grimmer_ok_shape n mean sd dm ds v h with rfl | rfl | rfl | rfl
  · right; right; right; exact ⟨rfl, rfl, rfl⟩
  · right; right; left; exact ⟨rfl, rfl, rfl⟩
  · right; left; exact ⟨rfl, rfl, rfl⟩
  · left; exact ⟨rfl, rfl, rfl⟩

/-- Witness for C10: instantiated at the `n = 2`, `mean = 3`, `sd = 1`
verdict. -/
theorem result_string_determines_flags_witness :
    ((grimmerInconsistentVerdict 3).result = "consistent" ∧
      (grimmerInconsistentVerdict 3).grim_passed = some true ∧
      (grimmerInconsistentVerdict 3).grimmer_passed = some true) ∨
    ((grimmerInconsistentVerdict 3).result = "GRIMMER inconsistent" ∧
      (grimmerInconsistentVerdict 3).grim_passed = some true ∧
      (grimmerInconsistentVerdict 3).grimmer_passed = some false) ∨
    ((grimmerInconsistentVerdict 3).result = "GRIM inconsistent" ∧
      (grimmerInconsistentVerdict 3).grim_passed = some false ∧
      (grimmerInconsistentVerdict 3).grimmer_passed = none) ∨
    ((grimmerInconsistentVerdict 3).result =
        "GRIM inapplicable (n too large for reported precision)" ∧
      (grimmerInconsistentVerdict 3).grim_passed = none ∧
      (grimmerInconsistentVerdict 3).grimmer_passed = none) :=
  result_string_determines_flags 2 3 1 2 2 (grimmerInconsistentVerdict 3)
    a_grimmer_two_three_one

/-- C2: for the canonical Wansink/pizzagate input `n = 18`, `mean = 3.44`,
`sd = 2.47` (default two decimals for both), the engine returns
`result = "GRIMMER inconsistent"` with `grim_passed = true` (and
`grimmer_passed = false`, `reconstructed_mean = 31/9`): the only candidate
passing the SD test, `x = 317`, is odd while `realsum = 62` is even. -/
theorem a_grimmer_pizzagate :
    a_grimmer 18 (86 / 25) (247 / 100) 2 2 = .ok (grimmerInconsistentVerdict (31 / 9)) := by
  unfold a_grimmer
  rw [if_neg (by norm_num : ¬ (10 : ℤ) ^ 2 < 18), if_neg (by norm_num : ¬ (18 : ℤ) = 0),
    if_neg (by simp [grimPassesB_pizza] : ¬ grimPassesB 18 (86 / 25) 2 = false),
    if_neg (by rw [ceil_lowerBound_pizza, floor_upperBound_pizza]; omega :
      ¬ ⌊upperBoundOf 18 (86 / 25) (247 / 100) 2⌋ < ⌈lowerBoundOf 18 (86 / 25) (247 / 100) 2⌉),
    if_neg (by norm_num : ¬ (18 : ℤ) = 1),
    if_neg (by rw [matchesSDList_pizza]; simp :
      ¬ (matchesSDList 18 (86 / 25) (247 / 100) 2).any id = false),
    if_pos (by rw [thirdTestList_pizza]; rfl :
      (thirdTestList 18 (86 / 25) (247 / 100) 2).any id = false),
    realmeanOf_pizza]

/-- C8: whenever the halfway detector (which compares the scaled value
against the digit 5 within absolute tolerance `1e-9`) does not fire, the two
rounding helpers agree with each other and with Python's conventional
`round(v, d)`; they diverge exactly at detected halfway points, where
`round_half_down` returns `⌊v*10^d⌋/10^d` and `round_half_up` returns
`⌈v*10^d⌉/10^d`, and there the two results really differ. -/
theorem rounding_helpers_agree_off_halfway (v : ℚ) (d : ℕ) :
    (¬ isHalfway v d →
      round_half_down v d = (pythonRound (v * 10 ^ d) : ℚ) / 10 ^ d ∧
      round_half_up v d = (pythonRound (v * 10 ^ d) : ℚ) / 10 ^ d) ∧
    (isHalfway v d →
      round_half_down v d = (⌊v * 10 ^ d⌋ : ℚ) / 10 ^ d ∧
      round_half_up v d = (⌈v * 10 ^ d⌉ : ℚ) / 10 ^ d ∧
      round_half_down v d ≠ round_half_up v d) := by
  constructor
  · intro h
    unfold round_half_down round_half_up
    rw [if_neg h, if_neg h]
    exact ⟨rfl, rfl⟩
  · intro h
    unfold round_half_down round_half_up
    rw [if_pos h, if_pos h]
    refine ⟨rfl, rfl, ?_⟩
    have hF : (0 : ℚ) < 10 ^ d := by positivity
    unfold isHalfway at h
    have h' := abs_lt.mp h
    have heps : eps < 5 := by unfold eps; norm_num
    have h1 : ((⌊v * 10 ^ d⌋ : ℤ) : ℚ) < v * 10 ^ d := by linarith [h'.1]
    have h2 : v * 10 ^ d ≤ ((⌈v * 10 ^ d⌉ : ℤ) : ℚ) := Int.le_ceil _
    have h3 : ⌊v * 10 ^ d⌋ < ⌈v * 10 ^ d⌉ := by
      by_contra hc
      have hcq : ((⌈v * 10 ^ d⌉ : ℤ) : ℚ) ≤ ((⌊v * 10 ^ d⌋ : ℤ) : ℚ) :=
        Int.cast_le.mpr (not_lt.mp hc)
      linarith
    intro heq
    have h4 := congrArg (fun z : ℚ => z * 10 ^ d) heq
    simp only [div_mul_cancel₀ _ (ne_of_gt hF)] at h4
    have h5 : ⌊v * 10 ^ d⌋ = ⌈v * 10 ^ d⌉ := by exact_mod_cast h4
    omega

/-- Witness for C8: `v = 0.25` is not halfway at two decimals and both
helpers return `round(25)/100`; `v = 0.125` is halfway and the helpers
return `12/100` and `13/100`, which differ. -/
theorem rounding_helpers_agree_off_halfway_witness :
    (round_half_down (1 / 4) 2 = (pythonRound ((1 / 4 : ℚ) * 10 ^ 2) : ℚ) / 10 ^ 2 ∧
     round_half_up (1 / 4) 2 = (pythonRound ((1 / 4 : ℚ) * 10 ^ 2) : ℚ) / 10 ^ 2) ∧
    (round_half_down (1 / 8) 2 = (⌊(1 / 8 : ℚ) * 10 ^ 2⌋ : ℚ) / 10 ^ 2 ∧
     round_half_up (1 / 8) 2 = (⌈(1 / 8 : ℚ) * 10 ^ 2⌉ : ℚ) / 10 ^ 2 ∧
     round_half_down (1 / 8) 2 ≠ round_half_up (1 / 8) 2) :=
  ⟨(rounding_helpers_agree_off_halfway (1 / 4) 2).1 (by
      unfold isHalfway eps
      rw [show ((1 : ℚ) / 4 * 10 ^ 2) = ((25 : ℤ) : ℚ) by norm_num, Int.floor_intCast]
      rw [not_lt, le_abs]
      norm_num),
   (rounding_helpers_agree_off_halfway (1 / 8) 2).2 (by
      unfold isHalfway eps
      have hf : ⌊(1 : ℚ) / 8 * 10 ^ 2⌋ = 12 := by
        rw [Int.floor_eq_iff]
        push_cast
        norm_num
      rw [hf]
      norm_num)⟩

/-- C9 (counterexample): at the concrete passing input `n = 10`, `mean = 3`
(guard and GRIM both pass) there is no threshold `S` beyond which every
larger `sd` yields `"GRIMMER inconsistent"`: past any `S` there is an even
integer `sd = 2m` on which the engine returns `"consistent"`. -/
theorem no_sd_threshold_counterexample :
    ¬ ∃ S : ℚ, ∀ sd : ℚ, S < sd →
      ∃ v : Verdict, a_grimmer 10 3 sd 2 2 = .ok v ∧ v.result = "GRIMMER inconsistent" := by
  rintro ⟨S, hS⟩
  have hm1 : 1 ≤ ⌈S⌉.toNat + 1 := by omega
  have hSlt : S < ((2 * (⌈S⌉.toNat + 1) : ℕ) : ℚ) := by
    have h1 : S ≤ ((⌈S⌉ : ℤ) : ℚ) := Int.le_ceil S
    have h2 : (⌈S⌉ : ℤ) ≤ ((⌈S⌉.toNat : ℕ) : ℤ) := Int.self_le_toNat _
    have h3 : ((⌈S⌉ : ℤ) : ℚ) ≤ ((⌈S⌉.toNat : ℕ) : ℚ) := by exact_mod_cast h2
    have h4 : (0 : ℚ) ≤ ((⌈S⌉.toNat : ℕ) : ℚ) := Nat.cast_nonneg _
    push_cast
    push_cast at h3
    linarith
  obtain ⟨v, hv, hres⟩ := hS ((2 * (⌈S⌉.toNat + 1) : ℕ) : ℚ) hSlt
  rw [a_grimmer_ten_even_sd (⌈S⌉.toNat + 1) hm1] at hv
  injection hv with hv
  rw [← hv] at hres
  exact absurd hres (by decide)

/-- C9 (amended): the eventual-inconsistency claim fails in both directions:
for the fixed passing input `n = 10`, `mean = 3` (and any threshold `S`),
there are `sd > S` on which the engine returns `"consistent"` (even integer
`sd` whose variance is exactly reconstructable) and also `sd > S` on which
it returns `"GRIMMER inconsistent"` (`sd = K + 1/3`, which no two-decimal
rounded square root can match); no threshold as claimed exists. -/
theorem sd_threshold_fails_both_ways (S : ℚ) :
    (∃ sd : ℚ, S < sd ∧ a_grimmer 10 3 sd 2 2 = .ok (consistentVerdict 3)) ∧
    (∃ sd : ℚ, S < sd ∧ a_grimmer 10 3 sd 2 2 = .ok (grimmerInconsistentVerdict 3)) := by
  have h1 : S ≤ ((⌈S⌉ : ℤ) : ℚ) := Int.le_ceil S
  have h2 : (⌈S⌉ : ℤ) ≤ ((⌈S⌉.toNat : ℕ) : ℤ) := Int.self_le_toNat _
  have h3 : ((⌈S⌉ : ℤ) : ℚ) ≤ ((⌈S⌉.toNat : ℕ) : ℚ) := by exact_mod_cast h2
  have h4 : (0 : ℚ) ≤ ((⌈S⌉.toNat : ℕ) : ℚ) := Nat.cast_nonneg _
  constructor
  · refine ⟨((2 * (⌈S⌉.toNat + 1) : ℕ) : ℚ), ?_, a_grimmer_ten_even_sd (⌈S⌉.toNat + 1) (by omega)⟩
    push_cast
    push_cast at h3
    linarith
  · refine ⟨((⌈S⌉.toNat + 1 : ℕ) : ℚ) + 1 / 3, ?_, ?_⟩
    · push_cast
      push_cast at h3
      linarith
    · have := a_grimmer_ten_third (⌈S⌉.toNat + 1)
      rw [show (((⌈S⌉.toNat + 1 : ℕ) : ℚ)) + 1 / 3 = ((⌈S⌉.toNat + 1 : ℕ) : ℚ) + 1 / 3 from rfl]
      exact_mod_cast this

end Grimmer
